import Mathlib

/-!
Verification development for the delulu-deploy chat-analysis engine.

The embedding below models the two source files:
  * `delulu_meter_backend/main.py` — regex line parsing (`parse_chunk`), the
    metric computations inside `process_full_chat`, and the job store
    (`RESULT_STORE`, `analyze_chat`, `get_result`);
  * `streamlit_app.py` — the four-pattern line parsing loop (`parse_chat`).

Floating-point arithmetic of the source is modelled over `ℚ` (the constants
0.8, 0.3, 0.5, 0.6 are exact decimals), Python datetimes as a calendar record
with minute resolution (the parsed formats carry no sub-minute data beyond
seconds, and the backend regex has no seconds at all), and Python dicts as
association lists in insertion order.
-/

set_option maxRecDepth 100000

namespace Delulu

/-- Python whitespace test covering the regex class for backslash-s and
`str.strip`, restricted to the ASCII whitespace characters. -/
def pyWs (c : Char) : Bool :=
  c == ' ' || c == '\t' || c == '\n' || c == '\r' || c == Char.ofNat 11 || c == Char.ofNat 12

/-- Numeric value of a digit string, most significant digit first. -/
def natOfDigits (l : List Char) : Nat :=
  l.foldl (fun n c => n * 10 + (c.toNat - 48)) 0

/-- Python `str.strip()`: drop leading and trailing whitespace. -/
def pyStrip (l : List Char) : List Char :=
  ((l.dropWhile pyWs).reverse.dropWhile pyWs).reverse

/-- Generic split of a character list at every occurrence of `sep`,
keeping empty pieces, matching Python `str.split(sep)`. -/
def splitOnC (sep : Char) : List Char → List (List Char)
  | [] => [[]]
  | c :: rest =>
    if c = sep then [] :: splitOnC sep rest
    else
      match splitOnC sep rest with
      | [] => [[c]]
      | h :: t => (c :: h) :: t

/-! Ordered-candidate backtracking engine for the regular expressions of the
source. A `Cand α` is the list of ways a pattern piece can consume input,
in the priority order the Python `re` engine explores them (greedy
quantifiers first). The head of the fully-matched candidate list is the
match `re` returns. -/

abbrev Cand (α : Type) : Type := List (α × List Char)

def cbind {α β : Type} (xs : Cand α) (f : α → List Char → Cand β) : Cand β :=
  xs.foldr (fun p acc => f p.1 p.2 ++ acc) []

/-- Piece for a greedy counted digit class: candidates for consuming between
`lo` and `hi` digits, longest first. -/
def pDigits (lo hi : Nat) (s : List Char) : Cand (List Char) :=
  let run := min hi (s.takeWhile Char.isDigit).length
  ((List.range (run + 1)).reverse.filter (fun k => decide (lo ≤ k))).map
    (fun k => (s.take k, s.drop k))

/-- Piece for one literal character. -/
def pLit (c : Char) (s : List Char) : Cand Unit :=
  match s with
  | x :: r => if x = c then [((), r)] else []
  | [] => []

/-- Piece for one mandatory whitespace character. -/
def pWs1 (s : List Char) : Cand Unit :=
  match s with
  | x :: r => if pyWs x then [((), r)] else []
  | [] => []

/-- Piece for an optional whitespace character, capturing what was consumed
(greedy: the consuming candidate comes first). -/
def pOptWs (s : List Char) : Cand (List Char) :=
  match s with
  | x :: r => if pyWs x then [([x], r), ([], x :: r)] else [([], x :: r)]
  | [] => [([], [])]

/-- Piece for an optional whitespace character when the capture is not needed. -/
def pOptWsU (s : List Char) : Cand Unit :=
  match s with
  | x :: r => if pyWs x then [((), r), ((), x :: r)] else [((), x :: r)]
  | [] => [((), [])]

/-- Piece for an optional literal dash. -/
def pOptDash (s : List Char) : Cand Unit :=
  match s with
  | x :: r => if x = '-' then [((), r), ((), x :: r)] else [((), x :: r)]
  | [] => [((), [])]

/-- Piece for the optional am/pm alternation of the backend time group, in
the alternation order of the source pattern, the empty match last. -/
def pAmPm (s : List Char) : Cand (List Char) :=
  (match s with
   | 'a' :: 'm' :: r => [(['a', 'm'], r)]
   | 'p' :: 'm' :: r => [(['p', 'm'], r)]
   | 'A' :: 'M' :: r => [(['A', 'M'], r)]
   | 'P' :: 'M' :: r => [(['P', 'M'], r)]
   | _ => []) ++ [([], s)]

/-- Lazy scan for the author/message tail shared by every source pattern: the
minimal prefix (the author group, which cannot cross a newline) followed by a
colon and one whitespace character; the remainder of the line is the message
group. -/
def findColonWs : List Char → Option (List Char × List Char)
  | [] => none
  | c :: rest =>
    if c = ':' then
      match rest with
      | r :: rs =>
        if pyWs r then some ([], rs)
        else
          match findColonWs rest with
          | some (a, m) => some (c :: a, m)
          | none => none
      | [] => none
    else if c = '\n' then none
    else
      match findColonWs rest with
      | some (a, m) => some (c :: a, m)
      | none => none

/-- Captured groups of one matched line. -/
structure MGroups where
  date : List Char
  time : List Char
  author : List Char
  msg : List Char
deriving DecidableEq

/-- Backend line pattern of `parse_chunk` (main.py line 32), applied to the
stripped line: date `d{1,2}/d{1,2}/d{2,4}`, comma, whitespace, time
`d{1,2}:d{2}` with an optional whitespace and am/pm marker inside the time
group, whitespace-dash-whitespace, lazy author up to a colon and whitespace,
then the rest of the line as the message. -/
def matchMain (line : List Char) : Option MGroups :=
  let s0 := pyStrip line
  let cands : Cand MGroups :=
    cbind (pDigits 1 2 s0) fun d1 s =>
    cbind (pLit '/' s) fun _ s =>
    cbind (pDigits 1 2 s) fun d2 s =>
    cbind (pLit '/' s) fun _ s =>
    cbind (pDigits 2 4 s) fun d3 s =>
    cbind (pLit ',' s) fun _ s =>
    cbind (pWs1 s) fun _ s =>
    cbind (pDigits 1 2 s) fun th s =>
    cbind (pLit ':' s) fun _ s =>
    cbind (pDigits 2 2 s) fun tm s =>
    cbind (pOptWs s) fun w s =>
    cbind (pAmPm s) fun ap s =>
    cbind (pWs1 s) fun _ s =>
    cbind (pLit '-' s) fun _ s =>
    cbind (pWs1 s) fun _ s =>
    match findColonWs s with
    | some (a, m) => [(⟨d1 ++ '/' :: d2 ++ '/' :: d3, th ++ ':' :: tm ++ w ++ ap, a, m⟩, [])]
    | none => []
  (cands.map Prod.fst).head?

/-- Streamlit pattern 1 (streamlit_app.py line 38): date, comma, whitespace,
time without seconds, optional whitespace, optional dash, whitespace, author,
message. -/
def matchP1 (s0 : List Char) : Option MGroups :=
  let cands : Cand MGroups :=
    cbind (pDigits 1 2 s0) fun d1 s =>
    cbind (pLit '/' s) fun _ s =>
    cbind (pDigits 1 2 s) fun d2 s =>
    cbind (pLit '/' s) fun _ s =>
    cbind (pDigits 2 4 s) fun d3 s =>
    cbind (pLit ',' s) fun _ s =>
    cbind (pWs1 s) fun _ s =>
    cbind (pDigits 1 2 s) fun th s =>
    cbind (pLit ':' s) fun _ s =>
    cbind (pDigits 2 2 s) fun tm s =>
    cbind (pOptWsU s) fun _ s =>
    cbind (pOptDash s) fun _ s =>
    cbind (pWs1 s) fun _ s =>
    match findColonWs s with
    | some (a, m) => [(⟨d1 ++ '/' :: d2 ++ '/' :: d3, th ++ ':' :: tm, a, m⟩, [])]
    | none => []
  (cands.map Prod.fst).head?

/-- Streamlit pattern 2 (line 39): like pattern 1 but the time group carries
seconds. -/
def matchP2 (s0 : List Char) : Option MGroups :=
  let cands : Cand MGroups :=
    cbind (pDigits 1 2 s0) fun d1 s =>
    cbind (pLit '/' s) fun _ s =>
    cbind (pDigits 1 2 s) fun d2 s =>
    cbind (pLit '/' s) fun _ s =>
    cbind (pDigits 2 4 s) fun d3 s =>
    cbind (pLit ',' s) fun _ s =>
    cbind (pWs1 s) fun _ s =>
    cbind (pDigits 1 2 s) fun th s =>
    cbind (pLit ':' s) fun _ s =>
    cbind (pDigits 2 2 s) fun tm s =>
    cbind (pLit ':' s) fun _ s =>
    cbind (pDigits 2 2 s) fun ts s =>
    cbind (pOptWsU s) fun _ s =>
    cbind (pOptDash s) fun _ s =>
    cbind (pWs1 s) fun _ s =>
    match findColonWs s with
    | some (a, m) => [(⟨d1 ++ '/' :: d2 ++ '/' :: d3, th ++ ':' :: tm ++ ':' :: ts, a, m⟩, [])]
    | none => []
  (cands.map Prod.fst).head?

/-- Streamlit pattern 3 (line 40): bracketed date-time with seconds. -/
def matchP3 (s0 : List Char) : Option MGroups :=
  let cands : Cand MGroups :=
    cbind (pLit '[' s0) fun _ s =>
    cbind (pDigits 1 2 s) fun d1 s =>
    cbind (pLit '/' s) fun _ s =>
    cbind (pDigits 1 2 s) fun d2 s =>
    cbind (pLit '/' s) fun _ s =>
    cbind (pDigits 2 4 s) fun d3 s =>
    cbind (pLit ',' s) fun _ s =>
    cbind (pWs1 s) fun _ s =>
    cbind (pDigits 1 2 s) fun th s =>
    cbind (pLit ':' s) fun _ s =>
    cbind (pDigits 2 2 s) fun tm s =>
    cbind (pLit ':' s) fun _ s =>
    cbind (pDigits 2 2 s) fun ts s =>
    cbind (pLit ']' s) fun _ s =>
    cbind (pWs1 s) fun _ s =>
    match findColonWs s with
    | some (a, m) => [(⟨d1 ++ '/' :: d2 ++ '/' :: d3, th ++ ':' :: tm ++ ':' :: ts, a, m⟩, [])]
    | none => []
  (cands.map Prod.fst).head?

/-- Streamlit pattern 4 (line 41): date and time separated by whitespace with
no comma, then a mandatory whitespace-dash-whitespace. -/
def matchP4 (s0 : List Char) : Option MGroups :=
  let cands : Cand MGroups :=
    cbind (pDigits 1 2 s0) fun d1 s =>
    cbind (pLit '/' s) fun _ s =>
    cbind (pDigits 1 2 s) fun d2 s =>
    cbind (pLit '/' s) fun _ s =>
    cbind (pDigits 2 4 s) fun d3 s =>
    cbind (pWs1 s) fun _ s =>
    cbind (pDigits 1 2 s) fun th s =>
    cbind (pLit ':' s) fun _ s =>
    cbind (pDigits 2 2 s) fun tm s =>
    cbind (pWs1 s) fun _ s =>
    cbind (pLit '-' s) fun _ s =>
    cbind (pWs1 s) fun _ s =>
    match findColonWs s with
    | some (a, m) => [(⟨d1 ++ '/' :: d2 ++ '/' :: d3, th ++ ':' :: tm, a, m⟩, [])]
    | none => []
  (cands.map Prod.fst).head?

/-! Calendar model. -/

def isLeap (y : Nat) : Bool :=
  y % 4 == 0 && (y % 100 != 0 || y % 400 == 0)

def daysInMonth (y m : Nat) : Nat :=
  if m = 2 then (if isLeap y then 29 else 28)
  else if m = 4 ∨ m = 6 ∨ m = 9 ∨ m = 11 then 30 else 31

/-- Day number of a proleptic Gregorian date (standard civil-day formula);
only differences and ordering of the results are used. -/
def rataDie (y m d : Nat) : Nat :=
  let y2 := y - (if m ≤ 2 then 1 else 0)
  let era := y2 / 400
  let yoe := y2 % 400
  let mp := (m + 9) % 12
  let doy := (153 * mp + 2) / 5 + d - 1
  let doe := yoe * 365 + yoe / 4 - yoe / 100 + doy
  era * 146097 + doe

/-- Datetime value at minute resolution: the parsed chat formats carry no
finer data that any metric uses (seconds captured by the bracketed streamlit
pattern are validated but the backend formats never produce them). -/
structure DT where
  year : Nat
  month : Nat
  day : Nat
  hour : Nat
  minute : Nat
deriving DecidableEq

def dtMinutes (t : DT) : Nat :=
  (rataDie t.year t.month t.day * 24 + t.hour) * 60 + t.minute

/-- Calendar-day projection, the `dt.date` accessor of the source. -/
def dateKey (t : DT) : Nat × Nat × Nat := (t.year, t.month, t.day)

def validDate (y m d : Nat) : Bool :=
  decide (1 ≤ m ∧ m ≤ 12 ∧ 1 ≤ d ∧ d ≤ daysInMonth y m)

/-- Two-digit years are widened to the dateutil century (values up to 68 map
into the 2000s); longer year strings stand for themselves. -/
def expandYear (ds : List Char) : Nat :=
  let y := natOfDigits ds
  if ds.length ≤ 2 then (if y ≤ 68 then 2000 + y else 1900 + y) else y

/-- Time-of-day part of the pandas parse: digits, colon, digits, then an
optional whitespace and am/pm marker as admitted by the backend regex.
Minutes above 59 or an out-of-range hour give none (NaT). -/
def parseTimeOfDay (l : List Char) : Option (Nat × Nat) :=
  let hds := l.takeWhile Char.isDigit
  let r1 := l.drop hds.length
  match r1 with
  | ':' :: r2 =>
    let mds := r2.takeWhile Char.isDigit
    let r3 := r2.drop mds.length
    let r4 := match r3 with
      | c :: cs => if pyWs c then cs else c :: cs
      | [] => []
    let hv := natOfDigits hds
    let mv := natOfDigits mds
    if hds = [] ∨ mds = [] ∨ 59 < mv then none
    else if r4 = [] then (if hv ≤ 23 then some (hv, mv) else none)
    else if r4 = ['a', 'm'] ∨ r4 = ['A', 'M'] then
      (if 1 ≤ hv ∧ hv ≤ 12 then some (hv % 12, mv) else none)
    else if r4 = ['p', 'm'] ∨ r4 = ['P', 'M'] then
      (if 1 ≤ hv ∧ hv ≤ 12 then some (hv % 12 + 12, mv) else none)
    else none
  | _ => none

/-- Modelled behavior of `pd.to_datetime(Date + " " + Time, errors="coerce",
dayfirst=True)` (main.py line 40) on strings the backend regex produces:
day-first reading of the three slash-separated numbers with the dateutil
fallback that swaps day and month when the day-first reading is invalid,
two-digit-year widening, am/pm application, and the pandas timestamp range
(years 1678 to 2261); any failure is NaT, modelled as none. -/
def toDT (dateS timeS : List Char) : Option DT :=
  match splitOnC '/' dateS with
  | [a, b, c] =>
    if a ≠ [] ∧ b ≠ [] ∧ c ≠ [] ∧ a.all Char.isDigit ∧ b.all Char.isDigit ∧ c.all Char.isDigit then
      let y := expandYear c
      let n1 := natOfDigits a
      let n2 := natOfDigits b
      if 1678 ≤ y ∧ y ≤ 2261 then
        match parseTimeOfDay timeS with
        | some (hh, mm) =>
          if validDate y n2 n1 then some ⟨y, n2, n1, hh, mm⟩
          else if validDate y n1 n2 then some ⟨y, n1, n2, hh, mm⟩
          else none
        | none => none
      else none
    else none
  | _ => none

/-! Model of CPython `datetime.strptime` for the two fixed formats of the
streamlit parser. The CPython field patterns are: day and month match one or
two digits whose value fits the field range, the year field matches exactly
four digits, hours match two digits up to 23 or one digit, minutes and
seconds two digits up to 59 or one digit, and the whole string must be
consumed; the datetime constructor then validates the calendar date. -/

def fTwoOrOne (okTwo okOne : Nat → Bool) (s : List Char) : Option (Nat × List Char) :=
  match s with
  | c1 :: c2 :: r =>
    if c1.isDigit ∧ c2.isDigit ∧ okTwo (natOfDigits [c1, c2]) then
      some (natOfDigits [c1, c2], r)
    else if c1.isDigit ∧ okOne (natOfDigits [c1]) then some (natOfDigits [c1], c2 :: r)
    else none
  | [c1] => if c1.isDigit ∧ okOne (natOfDigits [c1]) then some (natOfDigits [c1], []) else none
  | [] => none

def fDay (s : List Char) : Option (Nat × List Char) :=
  fTwoOrOne (fun v => decide (1 ≤ v ∧ v ≤ 31)) (fun v => decide (1 ≤ v ∧ v ≤ 9)) s

def fMonth (s : List Char) : Option (Nat × List Char) :=
  fTwoOrOne (fun v => decide (1 ≤ v ∧ v ≤ 12)) (fun v => decide (1 ≤ v ∧ v ≤ 9)) s

def fHour (s : List Char) : Option (Nat × List Char) :=
  fTwoOrOne (fun v => decide (v ≤ 23)) (fun _ => true) s

def fMinSec (s : List Char) : Option (Nat × List Char) :=
  fTwoOrOne (fun v => decide (v ≤ 59)) (fun _ => true) s

def fYear4 (s : List Char) : Option (Nat × List Char) :=
  match s with
  | c1 :: c2 :: c3 :: c4 :: r =>
    if c1.isDigit ∧ c2.isDigit ∧ c3.isDigit ∧ c4.isDigit then
      some (natOfDigits [c1, c2, c3, c4], r)
    else none
  | _ => none

def fLit (c : Char) (s : List Char) : Option (List Char) :=
  match s with
  | x :: r => if x = c then some r else none
  | _ => none

/-- Format whitespace matches one or more whitespace characters. -/
def fWs (s : List Char) : Option (List Char) :=
  match s with
  | x :: r => if pyWs x then some (r.dropWhile pyWs) else none
  | [] => none

/-- Modelled `datetime.strptime(s, "%d/%m/%Y %H:%M")`. -/
def strptimeDMYHM (s : List Char) : Option DT :=
  match fDay s with
  | none => none
  | some (d, s) =>
    match fLit '/' s with
    | none => none
    | some s =>
      match fMonth s with
      | none => none
      | some (m, s) =>
        match fLit '/' s with
        | none => none
        | some s =>
          match fYear4 s with
          | none => none
          | some (y, s) =>
            match fWs s with
            | none => none
            | some s =>
              match fHour s with
              | none => none
              | some (hh, s) =>
                match fLit ':' s with
                | none => none
                | some s =>
                  match fMinSec s with
                  | none => none
                  | some (mm, s) =>
                    if s = [] ∧ 1 ≤ y ∧ validDate y m d then some ⟨y, m, d, hh, mm⟩
                    else none

/-- Modelled `datetime.strptime(s, "%d/%m/%Y %H:%M:%S")`. Seconds are
validated and then dropped: minute resolution suffices for every consumer. -/
def strptimeDMYHMS (s : List Char) : Option DT :=
  match fDay s with
  | none => none
  | some (d, s) =>
    match fLit '/' s with
    | none => none
    | some s =>
      match fMonth s with
      | none => none
      | some (m, s) =>
        match fLit '/' s with
        | none => none
        | some s =>
          match fYear4 s with
          | none => none
          | some (y, s) =>
            match fWs s with
            | none => none
            | some s =>
              match fHour s with
              | none => none
              | some (hh, s) =>
                match fLit ':' s with
                | none => none
                | some s =>
                  match fMinSec s with
                  | none => none
                  | some (mm, s) =>
                    match fLit ':' s with
                    | none => none
                    | some s =>
                      match fMinSec s with
                      | none => none
                      | some (_, s) =>
                        if s = [] ∧ 1 ≤ y ∧ validDate y m d then some ⟨y, m, d, hh, mm⟩
                        else none

/-- Timestamp step of the streamlit loop (lines 49-55): try the minute
format, then the seconds format, on `date + " " + time`. -/
def strptimeChat (dateS timeS : List Char) : Option DT :=
  match strptimeDMYHM (dateS ++ ' ' :: timeS) with
  | some dt => some dt
  | none => strptimeDMYHMS (dateS ++ ' ' :: timeS)

/-! Record table pipeline of the backend. -/

/-- One row of the Record Table: a timestamped, attributed message. -/
structure Record where
  dt : DT
  author : String
  message : String
deriving DecidableEq

/-- Per-line behavior of `parse_chunk` (main.py lines 30-43): strip the
line, match the single backend pattern, combine date and time through the
pandas parse, and drop the row when either step fails. -/
def parseLineMain (l : List Char) : Option Record :=
  match matchMain l with
  | some g =>
    match toDT g.date g.time with
    | some dt => some ⟨dt, String.mk g.author, String.mk g.msg⟩
    | none => none
  | none => none

/-- Rows of one chunk of lines, in input order. -/
def parse_chunk (lines : List (List Char)) : List Record :=
  lines.filterMap parseLineMain

/-- Structural core of `chunkify`: the fuel argument only bounds the
recursion depth and never runs out when it starts at the list length. -/
def chunkifyFuel {α : Type} : Nat → List α → List (List α)
  | _, [] => []
  | 0, x :: xs => [x :: xs]
  | fuel + 1, x :: xs =>
    List.take 1000 (x :: xs) :: chunkifyFuel fuel (List.drop 1000 (x :: xs))

/-- The `chunkify` helper (main.py lines 26-28) with its default batch size
of 1000 lines. -/
def chunkify {α : Type} (l : List α) : List (List α) := chunkifyFuel l.length l

/-- Concatenated record table of an upload, in concatenation order exactly
as `pd.concat(all_dfs)` builds it (main.py line 80): chunk results in input
order, with no sorting applied. -/
def recordTable (input : String) : List Record :=
  ((chunkify (splitOnC '\n' input.toList)).map parse_chunk).flatten

/-! Metric computations of `process_full_chat`, each over the record table
it actually reads in the source. -/

/-- First-occurrence deduplication: the iteration order of a Python dict,
`Counter`, or pandas `unique()` built by insertion. -/
def dedupFO {α : Type} [DecidableEq α] (l : List α) : List α :=
  l.foldl (fun acc w => if w ∈ acc then acc else acc ++ [w]) []

/-- Items of `Counter(l)` in first-insertion order with their counts. -/
def counterItems {α : Type} [DecidableEq α] (l : List α) : List (α × Nat) :=
  (dedupFO l).map (fun w => (w, l.count w))

/-- Descending-count order used by `Counter.most_common` and by
`value_counts`: ties keep first-occurrence order (stable sort). -/
def cntGe {α : Type} (a b : α × Nat) : Prop := b.2 ≤ a.2

instance {α : Type} : DecidableRel (@cntGe α) :=
  fun a b => inferInstanceAs (Decidable (b.2 ≤ a.2))

instance {α : Type} : IsTotal (α × Nat) cntGe :=
  ⟨fun a b => Nat.le_total b.2 a.2⟩

instance {α : Type} : IsTrans (α × Nat) cntGe :=
  ⟨fun _ _ _ h1 h2 => Nat.le_trans h2 h1⟩

def sortByCountDesc {α : Type} (l : List (α × Nat)) : List (α × Nat) :=
  List.insertionSort cntGe l

def authorsOf (tbl : List Record) : List String := tbl.map Record.author

/-- Distinct authors in first-occurrence order, as `df['Author'].unique()`. -/
def uniqueAuthors (tbl : List Record) : List String := dedupFO (authorsOf tbl)

/-- Message counts per author, the data of `df['Author'].value_counts()`. -/
def author_counts (tbl : List Record) : List (String × Nat) :=
  counterItems (authorsOf tbl)

def minCount (tbl : List Record) : Nat :=
  match (author_counts tbl).map Prod.snd with
  | [] => 0
  | h :: t => t.foldl Nat.min h

def maxCount (tbl : List Record) : Nat :=
  match (author_counts tbl).map Prod.snd with
  | [] => 0
  | h :: t => t.foldl Nat.max h

/-- Ratio of least- to most-active author (main.py line 97): defaults to 1
whenever there are fewer than two distinct authors. -/
def msgRatio (tbl : List Record) : ℚ :=
  if 1 < (author_counts tbl).length then (minCount tbl : ℚ) / (maxCount tbl : ℚ) else 1

/-- Engagement balance classification (main.py line 98). -/
def engagement_balance (tbl : List Record) : String :=
  if (0.8 : ℚ) < msgRatio tbl then "Balanced participation ✨" else "One-sided energy 💀"

/-- Timestamp order on records. -/
def recLe (a b : Record) : Prop := dtMinutes a.dt ≤ dtMinutes b.dt

instance : DecidableRel recLe :=
  fun a b => inferInstanceAs (Decidable (dtMinutes a.dt ≤ dtMinutes b.dt))

instance : IsTotal Record recLe :=
  ⟨fun a b => Nat.le_total (dtMinutes a.dt) (dtMinutes b.dt)⟩

instance : IsTrans Record recLe := ⟨fun _ _ _ h1 h2 => Nat.le_trans h1 h2⟩

/-- The sorted copy `df_sorted = df.sort_values('DateTime')` (main.py line
89); modelled as a stable sort, which agrees with the source whenever
timestamps are distinct. -/
def sortTbl (tbl : List Record) : List Record := List.insertionSort recLe tbl

def diffMinutes (a b : Record) : ℚ :=
  (((dtMinutes b.dt : ℤ) - (dtMinutes a.dt : ℤ) : ℤ) : ℚ)

def diffHours (a b : Record) : ℚ := diffMinutes a b / 60

/-- Author-change reply deltas over adjacent pairs (main.py lines 90-93),
tagged with the replying author. -/
def replyPairs : List Record → List (String × ℚ)
  | [] => []
  | [_] => []
  | a :: b :: rest =>
    (if b.author ≠ a.author then [(b.author, diffMinutes a b)] else []) ++ replyPairs (b :: rest)

/-- All adjacent deltas in hours, tagged with the later author (main.py
lines 119-121). -/
def gapPairs : List Record → List (String × ℚ)
  | [] => []
  | [_] => []
  | a :: b :: rest => (b.author, diffHours a b) :: gapPairs (b :: rest)

/-- The `setdefault(...).append(...)` accumulation pattern: keys in first
insertion order, values in arrival order. -/
def upsertApp (k : String) (v : ℚ) : List (String × List ℚ) → List (String × List ℚ)
  | [] => [(k, [v])]
  | (k2, vs) :: rest =>
    if k2 = k then (k2, vs ++ [v]) :: rest else (k2, vs) :: upsertApp k v rest

def groupPairs (ps : List (String × ℚ)) : List (String × List ℚ) :=
  ps.foldl (fun acc p => upsertApp p.1 p.2 acc) []

def meanQ (l : List ℚ) : ℚ := l.sum / (l.length : ℚ)

def maxQ (l : List ℚ) : ℚ :=
  match l with
  | [] => 0
  | h :: t => t.foldl max h

/-- Round-half-to-even at the integers, the rounding mode of Python
`round`. -/
def roundHalfEven (q : ℚ) : ℤ :=
  let n := ⌊q⌋
  let f := q - (n : ℚ)
  if f < 1 / 2 then n
  else if 1 / 2 < f then n + 1
  else if n % 2 = 0 then n else n + 1

/-- Python `round(q, d)` (exact decimal model of the float rounding; every
value a claim touches is an exact short decimal). -/
def roundTo (d : Nat) (q : ℚ) : ℚ :=
  ((roundHalfEven (q * (10 ^ d : ℚ)) : ℤ) : ℚ) / (10 ^ d : ℚ)

/-- Mean reply delta per author, one decimal (main.py line 94), computed
over the sorted copy. -/
def reply_times (tbl : List Record) : List (String × ℚ) :=
  (groupPairs (replyPairs (sortTbl tbl))).map (fun kv => (kv.1, roundTo 1 (meanQ kv.2)))

/-- Maximum gap in hours per replying author, two decimals (main.py line
122), computed over the sorted copy. -/
def interaction_gaps (tbl : List Record) : List (String × ℚ) :=
  (groupPairs (gapPairs (sortTbl tbl))).map (fun kv => (kv.1, roundTo 2 (maxQ kv.2)))

/-- Ascending calendar order of group keys, as pandas `groupby` sorts them. -/
def dateLe (a b : Nat × Nat × Nat) : Prop :=
  rataDie a.1 a.2.1 a.2.2 ≤ rataDie b.1 b.2.1 b.2.2

instance : DecidableRel dateLe :=
  fun a b => inferInstanceAs (Decidable (rataDie a.1 a.2.1 a.2.2 ≤ rataDie b.1 b.2.1 b.2.2))

instance : IsTotal (Nat × Nat × Nat) dateLe :=
  ⟨fun a b => Nat.le_total (rataDie a.1 a.2.1 a.2.2) (rataDie b.1 b.2.1 b.2.2)⟩

instance : IsTrans (Nat × Nat × Nat) dateLe := ⟨fun _ _ _ h1 h2 => Nat.le_trans h1 h2⟩

def datesOf (tbl : List Record) : List (Nat × Nat × Nat) :=
  tbl.map (fun r => dateKey r.dt)

def distinctDatesSorted (tbl : List Record) : List (Nat × Nat × Nat) :=
  List.insertionSort dateLe (dedupFO (datesOf tbl))

/-- First record of a calendar day in the order of the table the groupby
reads — crucially, the UNSORTED concatenated table (main.py line 85). -/
def firstAuthorOn (tbl : List Record) (dk : Nat × Nat × Nat) : String :=
  match tbl.find? (fun r => decide (dateKey r.dt = dk)) with
  | some r => r.author
  | none => ""

def dayFirstAuthors (tbl : List Record) : List String :=
  (distinctDatesSorted tbl).map (firstAuthorOn tbl)

/-- Initiation index (main.py lines 85-86): day-starter counts as a
percentage of the number of days, one decimal, in value-counts order. -/
def initiation_index (tbl : List Record) : List (String × ℚ) :=
  (sortByCountDesc (counterItems (dayFirstAuthors tbl))).map
    (fun kv => (kv.1, roundTo 1 ((kv.2 : ℚ) / ((dayFirstAuthors tbl).length : ℚ) * 100)))

/-- Per-day mean polarity (main.py line 100); the polarity source is the
external sentiment capability `sent`. -/
def sentiment_timeline (sent : String → ℚ) (tbl : List Record) :
    List ((Nat × Nat × Nat) × ℚ) :=
  (distinctDatesSorted tbl).map (fun dk =>
    (dk, roundTo 3 (meanQ (((tbl.filter (fun r => decide (dateKey r.dt = dk)))).map
      (fun r => sent r.message)))))

def mean_sentiment (sent : String → ℚ) (tbl : List Record) : ℚ :=
  meanQ (tbl.map (fun r => sent r.message))

/-- Late-night message counts per author, hours 0 to 4 inclusive (main.py
lines 103-104). -/
def late_activity (tbl : List Record) : List (String × Nat) :=
  sortByCountDesc (counterItems ((tbl.filter (fun r => decide (r.dt.hour ≤ 4))).map Record.author))

/-- Membership in the four emoji code-point blocks of `emoji_usage`
(main.py lines 52-57). -/
def isEmojiChar (c : Char) : Bool :=
  decide ((0x1F600 ≤ c.toNat ∧ c.toNat ≤ 0x1F64F) ∨ (0x1F300 ≤ c.toNat ∧ c.toNat ≤ 0x1F5FF) ∨
    (0x1F680 ≤ c.toNat ∧ c.toNat ≤ 0x1F6FF) ∨ (0x1F1E0 ≤ c.toNat ∧ c.toNat ≤ 0x1F1FF))

def emojiRunsAux : List Char → Bool → Nat
  | [], _ => 0
  | c :: rest, inRun =>
    if isEmojiChar c then (if inRun then 0 else 1) + emojiRunsAux rest true
    else emojiRunsAux rest false

/-- Number of maximal emoji runs in a message: `len(emoji_pattern.findall(m))`
with the one-or-more character class of the source counts runs, not
characters. -/
def emojiRuns (l : List Char) : Nat := emojiRunsAux l false

/-- The `counts[k] = counts.get(k, 0) + n` accumulation pattern of a Python
dict: insertion-ordered association list. -/
def upsertAdd (k : String) (n : Nat) : List (String × Nat) → List (String × Nat)
  | [] => [(k, n)]
  | (k2, m) :: rest =>
    if k2 = k then (k2, m + n) :: rest else (k2, m) :: upsertAdd k n rest

/-- Emoji-run totals per author (main.py lines 51-61): every row inserts its
author key, even with zero emoji. -/
def emoji_usage (tbl : List Record) : List (String × Nat) :=
  tbl.foldl (fun acc r => upsertAdd r.author (emojiRuns r.message.toList) acc) []

/-- Python `str.split()` with no separator: whitespace runs, no empties. -/
def wordsSplitAux : List Char → List Char → List (List Char)
  | [], cur => if cur = [] then [] else [cur.reverse]
  | c :: rest, cur =>
    if pyWs c then
      (if cur = [] then wordsSplitAux rest [] else cur.reverse :: wordsSplitAux rest [])
    else wordsSplitAux rest (c :: cur)

def wordsSplit (l : List Char) : List (List Char) := wordsSplitAux l []

def wordCount (m : String) : Nat := (wordsSplit m.toList).length

def qMarks (m : String) : Nat := m.toList.count '?'

/-- Communication style of one author (main.py lines 108-116). -/
def styleOf (tbl : List Record) (a : String) : String :=
  let msgs := (tbl.filter (fun r => decide (r.author = a))).map Record.message
  let avg : ℚ := ((msgs.map wordCount).sum : ℚ) / (msgs.length : ℚ)
  let q : Nat := (msgs.map qMarks).sum
  let base :=
    if avg < 5 then "Concise 📝" else if 20 < avg then "Elaborative 📚" else "Balanced ⚖️"
  if ((msgs.length : ℚ)) * (0.3 : ℚ) < (q : ℚ) then base ++ " + Curious 🤔" else base

/-- Per-author style map, one entry per member of `df['Author'].unique()`. -/
def communication_style (tbl : List Record) : List (String × String) :=
  (uniqueAuthors tbl).map (fun a => (a, styleOf tbl a))

/-- ASCII lower-casing; Python `str.lower` agrees on the ASCII texts the
claims touch. -/
def lowerChars (l : List Char) : List Char := l.map Char.toLower

/-- The ASCII punctuation set `string.punctuation`: code points 33-47,
58-64, 91-96 and 123-126. -/
def isPunct (c : Char) : Bool :=
  decide ((33 ≤ c.toNat ∧ c.toNat ≤ 47) ∨ (58 ≤ c.toNat ∧ c.toNat ≤ 64) ∨
    (91 ≤ c.toNat ∧ c.toNat ≤ 96) ∨ (123 ≤ c.toNat ∧ c.toNat ≤ 126))

def stripPunct (l : List Char) : List Char := l.filter (fun c => !isPunct c)

/-- Python `" ".join`. -/
def joinSpace : List (List Char) → List Char
  | [] => []
  | [m] => m
  | m :: rest => m ++ ' ' :: joinSpace rest

def text_all (tbl : List Record) : List Char :=
  joinSpace (tbl.map (fun r => r.message.toList))

/-- Tokenization of main.py lines 124-125: lower-case, strip punctuation,
whitespace-split, keep words longer than three characters. -/
def wordsOfS (tbl : List Record) : List String :=
  ((wordsSplit (stripPunct (lowerChars (text_all tbl)))).map
    (fun w => String.mk w)).filter (fun w => decide (3 < w.length))

/-- Keyword themes (main.py line 126): `Counter(words).most_common(15)`. -/
def keyword_themes (tbl : List Record) : List (String × Nat) :=
  (sortByCountDesc (counterItems (wordsOfS tbl))).take 15

/-- Balance summand of the harmony score (main.py line 128): full weight 1
above the 0.8 ratio threshold, fallback weight 0.5 otherwise. -/
def balance_indicator (tbl : List Record) : ℚ :=
  if (0.8 : ℚ) < msgRatio tbl then 1 else 0.5

/-- Reply-speed summand of the harmony score: `np.mean` of an empty value
list is NaN and NaN compares False against 30, so the empty case takes the
0.6 branch. -/
def reply_indicator (tbl : List Record) : ℚ :=
  let vs := (reply_times tbl).map Prod.snd
  if vs ≠ [] ∧ meanQ vs < 30 then 1 else 0.6

/-- Harmony score (main.py line 128). -/
def harmony_score (sent : String → ℚ) (tbl : List Record) : ℚ :=
  roundTo 1
    (((balance_indicator tbl + reply_indicator tbl + (mean_sentiment sent tbl + 1) / 2) / 3) * 100)

/-- Delulu level classification (main.py line 130). -/
def delulu_level (sent : String → ℚ) (tbl : List Record) : String :=
  if 75 < harmony_score sent tbl then "Low 😌"
  else if 50 < harmony_score sent tbl then "Medium 😬" else "High 😭"

/-- The metric bundle stored under status done (main.py lines 132-147).
The sentiment standard deviation field is an irrational-valued float no
claim touches and is left out of the model. -/
structure Bundle where
  total_messages : Nat
  initiation_index : List (String × ℚ)
  reply_times : List (String × ℚ)
  engagement_balance : String
  sentiment_timeline : List ((Nat × Nat × Nat) × ℚ)
  late_activity : List (String × Nat)
  emoji_usage : List (String × Nat)
  communication_style : List (String × String)
  interaction_gaps : List (String × ℚ)
  keyword_themes : List (String × Nat)
  harmony_score : ℚ
  delulu_level : String
deriving DecidableEq

def mkBundle (sent : String → ℚ) (tbl : List Record) : Bundle :=
  ⟨tbl.length, initiation_index tbl, reply_times tbl, engagement_balance tbl,
    sentiment_timeline sent tbl, late_activity tbl, emoji_usage tbl,
    communication_style tbl, interaction_gaps tbl, keyword_themes tbl,
    harmony_score sent tbl, delulu_level sent tbl⟩

/-- Stored job state: the `processing` placeholder, a done bundle, or an
error message. -/
inductive JStatus where
  | processing
  | done (b : Bundle)
  | error (msg : String)
deriving DecidableEq

/-- The full pipeline `process_full_chat` (main.py lines 65-150) as the job
outcome it stores: decode and split, parse in chunks of 1000, keep the
nonempty chunk frames, error out when none survive, else concatenate and
compute the bundle. The sentiment capability `sent` is the external
TextBlob collaborator. -/
def process_full_chat (sent : String → ℚ) (input : String) : JStatus :=
  let lines := splitOnC '\n' input.toList
  let all_dfs := ((chunkify lines).map parse_chunk).filter (fun d => d ≠ [])
  if all_dfs = [] then JStatus.error "No valid chat data found."
  else JStatus.done (mkBundle sent all_dfs.flatten)

/-! Streamlit parser `parse_chat` (streamlit_app.py lines 31-60). -/

/-- One pattern attempt of the inner loop: regex match, then the two
strptime formats; a strptime failure behaves like no match for this
pattern (the `continue` moves to the next pattern). -/
def tryPat (m : List Char → Option MGroups) (l : List Char) : Option Record :=
  match m l with
  | some g =>
    match strptimeChat g.date g.time with
    | some dt => some ⟨dt, String.mk g.author, String.mk g.msg⟩
    | none => none
  | none => none

/-- The pattern list of `parse_chat`, in source order. -/
def chatPatterns : List (List Char → Option MGroups) :=
  [matchP1, matchP2, matchP3, matchP4]

/-- Per-line behavior of the `for pattern in patterns` loop with its break:
the first pattern attempt that succeeds wins; a line where every attempt
fails contributes nothing. -/
def parseChatLine (l : List Char) : Option Record :=
  chatPatterns.foldl (fun acc m => acc <|> tryPat m l) none

/-- The full `parse_chat` table over the decoded, newline-split upload. -/
def parse_chat (input : String) : List Record :=
  (splitOnC '\n' input.toList).filterMap parseChatLine

/-! Job orchestrator (main.py lines 22, 158-168). -/

/-- Orchestrator state: the `RESULT_STORE` dict and the queued background
tasks that have not run yet. -/
structure Orch where
  store : String → Option JStatus
  pending : List (String × String)

def Orch.init : Orch := ⟨fun _ => none, []⟩

/-- Steps of the orchestrator. `upload` is `analyze_chat` (lines 158-164):
a fresh uuid4 identifier (modelled by the freshness hypothesis) is stored
as processing and the pipeline is queued once via `background_tasks.add_task`.
`run` executes one queued task: `process_full_chat` stores its outcome, a
done bundle or an error, under the identifier (lines 77, 132, 150). -/
inductive OStep (sent : String → ℚ) : Orch → Orch → Prop where
  | upload (s : Orch) (id text : String) (hfresh : s.store id = none) :
      OStep sent s
        ⟨fun x => if x = id then some JStatus.processing else s.store x,
          s.pending ++ [(id, text)]⟩
  | run (s : Orch) (id text : String) (pre post : List (String × String))
      (hsplit : s.pending = pre ++ (id, text) :: post) :
      OStep sent s
        ⟨fun x => if x = id then some (process_full_chat sent text) else s.store x,
          pre ++ post⟩

/-- Reachability from the empty store. -/
def Reach (sent : String → ℚ) (s : Orch) : Prop :=
  Relation.ReflTransGen (OStep sent) Orch.init s

/-- The status query `get_result` (main.py lines 166-168):
`RESULT_STORE.get(task_id, the processing placeholder)`. -/
def get_result (s : Orch) (id : String) : JStatus :=
  (s.store id).getD JStatus.processing

/-- Neutral sentiment capability used for concrete scenario runs; the
balance, initiation, reply and keyword metrics do not read it. -/
def sent0 : String → ℚ := fun _ => 0

/-- Identifiers with a queued background task. -/
def pendingIds (s : Orch) : List String := s.pending.map Prod.fst

/-- The scenario input of the spec: three messages on one day. -/
def scenario5 : String :=
  "01/01/24, 10:00 - Alice: hi\n01/01/24, 10:05 - Bob: hello\n01/01/24, 10:06 - Bob: how are you"

/-- An upload whose lines arrive out of chronological order. -/
def outOfOrderInput : String :=
  "01/01/24, 12:00 - Bob: x\n01/01/24, 10:00 - Alice: y"

/-- Orchestrator state after uploading one file under identifier a. -/
def orchS1 : Orch :=
  ⟨fun x => if x = "a" then some JStatus.processing else Orch.init.store x,
    Orch.init.pending ++ [("a", "t")]⟩

/-- Orchestrator state after the queued task for identifier a has run. -/
def orchS2 : Orch :=
  ⟨fun x => if x = "a" then some (process_full_chat sent0 "t") else orchS1.store x,
    ([] : List (String × String)) ++ []⟩

/-! Helper lemmas. -/

theorem flatten_chunkifyFuel {α : Type} :
    ∀ (n : Nat) (l : List α), l.length ≤ n → (chunkifyFuel n l).flatten = l := by
  intro n
  induction n with
  | zero =>
    intro l h
    cases l with
    | nil => rfl
    | cons x xs => simp at h
  | succ n ih =>
    intro l h
    cases l with
    | nil => rfl
    | cons x xs =>
      show List.take 1000 (x :: xs) ++ (chunkifyFuel n (List.drop 1000 (x :: xs))).flatten =
        x :: xs
      rw [ih]
      · exact List.take_append_drop 1000 (x :: xs)
      · simp only [List.length_drop, List.length_cons]
        simp only [List.length_cons] at h
        omega

theorem flatten_chunkify {α : Type} (l : List α) : (chunkify l).flatten = l :=
  flatten_chunkifyFuel l.length l (Nat.le_refl _)

theorem parse_chunk_flatten (L : List (List (List Char))) :
    (L.map parse_chunk).flatten = parse_chunk L.flatten := by
  induction L with
  | nil => rfl
  | cons c t ih => simp [parse_chunk, List.filterMap_append, ih]

theorem recordTable_eq (input : String) :
    recordTable input = (splitOnC '\n' input.toList).filterMap parseLineMain := by
  unfold recordTable
  rw [parse_chunk_flatten, flatten_chunkify]
  rfl

theorem filter_ne_nil_eq_nil_iff (L : List (List Record)) :
    (L.filter (fun d => d ≠ []) = []) ↔ L.flatten = [] := by
  induction L with
  | nil => simp
  | cons h t ih =>
    by_cases hh : h = []
    · subst hh
      simp [ih]
    · simp [List.filter_cons, hh, ih]

theorem mem_dedupFO_aux {α : Type} [DecidableEq α] (l : List α) :
    ∀ (acc : List α) (x : α),
      x ∈ l.foldl (fun acc w => if w ∈ acc then acc else acc ++ [w]) acc → x ∈ acc ∨ x ∈ l := by
  induction l with
  | nil => exact fun acc x h => Or.inl h
  | cons y t ih =>
    intro acc x h
    simp only [List.foldl_cons] at h
    rcases ih _ x h with h2 | h2
    · by_cases hy : y ∈ acc
      · rw [if_pos hy] at h2; exact Or.inl h2
      · rw [if_neg hy] at h2
        rcases List.mem_append.mp h2 with h3 | h3
        · exact Or.inl h3
        · simp only [List.mem_singleton] at h3
          subst h3
          exact Or.inr (List.mem_cons_self x t)
    · exact Or.inr (List.mem_cons_of_mem _ h2)

theorem mem_of_mem_dedupFO {α : Type} [DecidableEq α] {l : List α} {x : α}
    (h : x ∈ dedupFO l) : x ∈ l := by
  rcases mem_dedupFO_aux l [] x h with h2 | h2
  · cases h2
  · exact h2

theorem nodup_dedupFO_aux {α : Type} [DecidableEq α] (l : List α) :
    ∀ acc : List α, acc.Nodup →
      (l.foldl (fun acc w => if w ∈ acc then acc else acc ++ [w]) acc).Nodup := by
  induction l with
  | nil => exact fun acc h => h
  | cons x t ih =>
    intro acc h
    simp only [List.foldl_cons]
    apply ih
    by_cases hx : x ∈ acc
    · simpa [hx] using h
    · rw [if_neg hx]
      refine h.append (List.nodup_singleton x) ?_
      intro a ha hb
      simp only [List.mem_singleton] at hb
      subst hb
      exact hx ha

theorem nodup_dedupFO {α : Type} [DecidableEq α] (l : List α) : (dedupFO l).Nodup :=
  nodup_dedupFO_aux l [] List.nodup_nil

theorem mem_counterItems {α : Type} [DecidableEq α] {l : List α} {p : α × Nat}
    (h : p ∈ counterItems l) : p.1 ∈ l ∧ p.2 = l.count p.1 := by
  rcases List.mem_map.mp h with ⟨w, hw, hp⟩
  subst hp
  exact ⟨mem_of_mem_dedupFO hw, rfl⟩

theorem author_counts_length (tbl : List Record) :
    (author_counts tbl).length = (uniqueAuthors tbl).length := by
  simp [author_counts, counterItems, uniqueAuthors]

theorem msgRatio_single (tbl : List Record) (h : (uniqueAuthors tbl).length < 2) :
    msgRatio tbl = 1 := by
  unfold msgRatio
  rw [if_neg]
  rw [author_counts_length]
  omega

theorem keys_upsertAdd (k : String) (n : Nat) (acc : List (String × Nat)) :
    (upsertAdd k n acc).map Prod.fst =
      if k ∈ acc.map Prod.fst then acc.map Prod.fst else acc.map Prod.fst ++ [k] := by
  induction acc with
  | nil => simp [upsertAdd]
  | cons p rest ih =>
    obtain ⟨k2, m⟩ := p
    by_cases hk : k2 = k
    · subst hk
      simp [upsertAdd]
    · simp only [upsertAdd, if_neg hk, List.map_cons, ih]
      by_cases hmem : k ∈ rest.map Prod.fst
      · simp [hmem, List.mem_cons]
      · simp [hmem, List.mem_cons, Ne.symm hk]

theorem emoji_keys_aux (rows : List Record) :
    ∀ acc : List (String × Nat),
      ((rows.foldl (fun acc r => upsertAdd r.author (emojiRuns r.message.toList) acc) acc).map
        Prod.fst) =
        (rows.map Record.author).foldl (fun ks a => if a ∈ ks then ks else ks ++ [a])
          (acc.map Prod.fst) := by
  induction rows with
  | nil => exact fun acc => rfl
  | cons r t ih =>
    intro acc
    simp only [List.foldl_cons, List.map_cons]
    rw [ih, keys_upsertAdd]

/-! Claim theorems. -/

/-- C1 (counterexample): for the one-author table of a concrete upload the
engagement-balance metric classifies the table as balanced — the balanced
branch of main.py line 98 — rather than reporting insufficient data; no
insufficient-data outcome exists in the code. -/
theorem c1_counterexample :
    (uniqueAuthors (recordTable "01/01/24, 10:00 - Alice: hi")).length = 1 ∧
    engagement_balance (recordTable "01/01/24, 10:00 - Alice: hi") = "Balanced participation ✨" ∧
    engagement_balance (recordTable "01/01/24, 10:00 - Alice: hi") ≠ "insufficient data" := by
  with_unfolding_all decide

/-- C1 (amended): whenever the record table has fewer than two distinct
authors, the ratio defaults to 1 and the engagement-balance metric reports
the balanced classification; it never reports an insufficient-data value. -/
theorem c1_balance_single_author (tbl : List Record)
    (h : (uniqueAuthors tbl).length < 2) :
    engagement_balance tbl = "Balanced participation ✨" := by
  unfold engagement_balance
  rw [msgRatio_single tbl h, if_pos]
  norm_num

/-- C1 witness: the amended theorem applied to a concrete one-author table. -/
theorem c1_witness :
    (uniqueAuthors (recordTable "02/02/24, 09:00 - Zoe: hey\n02/02/24, 09:01 - Zoe: again")).length < 2 ∧
    engagement_balance (recordTable "02/02/24, 09:00 - Zoe: hey\n02/02/24, 09:01 - Zoe: again") =
      "Balanced participation ✨" :=
  ⟨by decide, c1_balance_single_author _ (by decide)⟩

/-- C4 (counterexample): on a concrete single-author upload the balance
summand of the harmony score is the full weight 1, not the claimed 0.5
fallback; the harmony score is 70, whereas the 0.5 fallback would have
produced 53.3. -/
theorem c4_counterexample :
    balance_indicator (recordTable "01/01/24, 10:00 - Alice: hi") = 1 ∧
    harmony_score sent0 (recordTable "01/01/24, 10:00 - Alice: hi") = 70 ∧
    roundTo 1
      ((((0.5 : ℚ) + reply_indicator (recordTable "01/01/24, 10:00 - Alice: hi") +
        (mean_sentiment sent0 (recordTable "01/01/24, 10:00 - Alice: hi") + 1) / 2) / 3) * 100) =
      533 / 10 ∧
    (70 : ℚ) ≠ 533 / 10 := by
  with_unfolding_all decide

/-- C4 (amended): with exactly one distinct author the harmony score still
computes, but its balance indicator is the full weight 1 — the ratio
defaults to 1, which exceeds the 0.8 threshold — and the score equals the
composite formula with balance summand 1. -/
theorem c4_harmony_single_author (tbl : List Record)
    (h : (uniqueAuthors tbl).length = 1) :
    msgRatio tbl = 1 ∧ balance_indicator tbl = 1 ∧
      ∀ sent, harmony_score sent tbl =
        roundTo 1 (((1 + reply_indicator tbl + (mean_sentiment sent tbl + 1) / 2) / 3) * 100) := by
  have hr : msgRatio tbl = 1 := msgRatio_single tbl (by omega)
  have hb : balance_indicator tbl = 1 := by
    unfold balance_indicator
    rw [hr, if_pos]
    norm_num
  refine ⟨hr, hb, fun sent => ?_⟩
  unfold harmony_score
  rw [hb]

/-- C4 witness: the amended theorem applied to a concrete one-author table. -/
theorem c4_witness :
    (uniqueAuthors (recordTable "03/03/24, 08:00 - Mia: yo")).length = 1 ∧
    balance_indicator (recordTable "03/03/24, 08:00 - Mia: yo") = 1 :=
  ⟨by decide, (c4_harmony_single_author _ (by decide)).2.1⟩

/-- C5: on the three-line scenario input, the backend pipeline yields three
records with two distinct authors, initiation index Alice 100.0, and reply
times exactly Bob 5.0 — the Bob-to-Bob adjacent pair contributes nothing. -/
theorem c5_scenario :
    (recordTable scenario5).length = 3 ∧
    (uniqueAuthors (recordTable scenario5)).length = 2 ∧
    initiation_index (recordTable scenario5) = [("Alice", 100)] ∧
    reply_times (recordTable scenario5) = [("Bob", 5)] := by
  with_unfolding_all decide

/-- C6: whenever no line of the upload survives parsing and timestamp
normalization, `process_full_chat` stores the explicit error outcome and
never reaches the metric computations. -/
theorem c6_empty_table_error (sent : String → ℚ) (input : String)
    (h : recordTable input = []) :
    process_full_chat sent input = JStatus.error "No valid chat data found." := by
  have h2 : ((chunkify (splitOnC '\n' input.toList)).map parse_chunk).filter
      (fun d => d ≠ []) = [] :=
    (filter_ne_nil_eq_nil_iff _).mpr h
  unfold process_full_chat
  simp only [h2]
  rfl

/-- C6 witness: a file of unparseable lines produces the empty table and the
explicit error result. -/
theorem c6_witness :
    recordTable "hello\nthis file has no timestamps" = [] ∧
    process_full_chat sent0 "hello\nthis file has no timestamps" =
      JStatus.error "No valid chat data found." :=
  ⟨by decide, c6_empty_table_error sent0 _ (by decide)⟩

/-- C2 (counterexample): the line `01/01/24, 10:00 - Alice: hi` is in the
first supported shape — its pattern matches — yet the parser produces no
row at all: the strptime year field demands four digits, both formats fail
on the two-digit year, and the remaining patterns do not match either. -/
theorem c2_counterexample :
    (matchP1 "01/01/24, 10:00 - Alice: hi".toList).isSome = true ∧
    parseChatLine "01/01/24, 10:00 - Alice: hi".toList = none ∧
    parse_chat "01/01/24, 10:00 - Alice: hi" = [] := by
  decide

/-- C2 (amended): the parser tries the four patterns in priority order and
produces a row for the first pattern attempt that both matches and whose
captured date and time survive strptime validation (day-first with a
four-digit year); a line where every pattern attempt fails — no regex
match, or a timestamp failing validation, such as any two-digit year —
contributes zero rows. -/
theorem c2_pattern_priority (l : List Char) :
    (tryPat matchP1 l = none → tryPat matchP2 l = none → tryPat matchP3 l = none →
      tryPat matchP4 l = none → parseChatLine l = none) ∧
    (∀ r, tryPat matchP1 l = some r → parseChatLine l = some r) ∧
    (∀ r, tryPat matchP1 l = none → tryPat matchP2 l = some r → parseChatLine l = some r) ∧
    (∀ r, tryPat matchP1 l = none → tryPat matchP2 l = none → tryPat matchP3 l = some r →
      parseChatLine l = some r) ∧
    (∀ r, tryPat matchP1 l = none → tryPat matchP2 l = none → tryPat matchP3 l = none →
      tryPat matchP4 l = some r → parseChatLine l = some r) := by
  have he : parseChatLine l =
      (((tryPat matchP1 l <|> tryPat matchP2 l) <|> tryPat matchP3 l) <|> tryPat matchP4 l) := rfl
  refine ⟨?_, ?_, ?_, ?_, ?_⟩
  · intro h1 h2 h3 h4
    rw [he, h1, h2, h3, h4]
    rfl
  · intro r h1
    rw [he, h1]
    rfl
  · intro r h1 h2
    rw [he, h1, h2]
    rfl
  · intro r h1 h2 h3
    rw [he, h1, h2, h3]
    rfl
  · intro r h1 h2 h3 h4
    rw [he, h1, h2, h3, h4]
    rfl

/-- C2 witness: a four-digit-year line in the first shape parses through the
first pattern. -/
theorem c2_witness :
    parseChatLine "01/01/2024, 10:00 - Alice: hi".toList =
      some ⟨⟨2024, 1, 1, 10, 0⟩, "Alice", "hi"⟩ :=
  (c2_pattern_priority _).2.1 ⟨⟨2024, 1, 1, 10, 0⟩, "Alice", "hi"⟩ (by decide)

/-- C3 (counterexample): for an upload whose lines arrive out of
chronological order, the concatenated table the initiation index reads is
not sorted, and sorting it first would change the initiation index: the
unsorted table credits Bob with the first record of the day even though
the earliest record of that day is by Alice. -/
theorem c3_counterexample :
    ¬ List.Pairwise recLe (recordTable outOfOrderInput) ∧
    initiation_index (recordTable outOfOrderInput) = [("Bob", 100)] ∧
    initiation_index (sortTbl (recordTable outOfOrderInput)) = [("Alice", 100)] := by
  with_unfolding_all decide

/-- C3 (amended): the chunk results are concatenated in input order with no
global sort before the metrics run; only the reply-time and interaction-gap
computations read a sorted copy of the table (and that copy is sorted),
while the initiation index and the calendar-day groupings read the
concatenated table as is. -/
theorem c3_concat_without_sort :
    (∀ input : String,
      recordTable input = (splitOnC '\n' input.toList).filterMap parseLineMain) ∧
    (∀ tbl : List Record,
      List.Pairwise recLe (sortTbl tbl) ∧
      reply_times tbl = reply_times (sortTbl tbl) ∧
      interaction_gaps tbl = interaction_gaps (sortTbl tbl)) := by
  refine ⟨recordTable_eq, fun tbl => ?_⟩
  have hs : List.Sorted recLe (sortTbl tbl) := List.sorted_insertionSort recLe tbl
  have hidem : sortTbl (sortTbl tbl) = sortTbl tbl := hs.insertionSort_eq
  refine ⟨hs, ?_, ?_⟩
  · unfold reply_times
    rw [hidem]
  · unfold interaction_gaps
    rw [hidem]

/-- C7 invariant: in every reachable orchestrator state, an identifier with
a queued task is stored as processing, and no identifier has two queued
tasks. -/
theorem orch_inv (sent : String → ℚ) (s : Orch) (h : Reach sent s) :
    (∀ id, id ∈ pendingIds s → s.store id = some JStatus.processing) ∧
    (pendingIds s).Nodup := by
  unfold Reach at h
  induction h with
  | refl =>
    exact ⟨fun id hmem => absurd hmem (by simp [pendingIds, Orch.init]),
      by simp [pendingIds, Orch.init]⟩
  | @tail s2 s3 hr hstep ih =>
    cases hstep with
    | upload id2 text hfresh =>
      constructor
      · intro id3 hmem
        have hmem2 : id3 ∈ pendingIds s2 ∨ id3 = id2 := by
          simpa [pendingIds] using hmem
        show (if id3 = id2 then some JStatus.processing else s2.store id3) =
          some JStatus.processing
        by_cases hid : id3 = id2
        · rw [if_pos hid]
        · rw [if_neg hid]
          rcases hmem2 with h2 | h2
          · exact ih.1 id3 h2
          · exact absurd h2 hid
      · show ((s2.pending ++ [(id2, text)]).map Prod.fst).Nodup
        rw [List.map_append]
        refine ih.2.append (List.nodup_singleton id2) ?_
        intro a ha hb
        simp only [List.map_cons, List.map_nil, List.mem_singleton] at hb
        subst hb
        have h2 := ih.1 a ha
        rw [hfresh] at h2
        cases h2
    | run id2 text pre post hsplit =>
      have hpend : pendingIds s2 = pre.map Prod.fst ++ id2 :: post.map Prod.fst := by
        rw [pendingIds, hsplit]
        simp
      have hnd := ih.2
      rw [hpend] at hnd
      have hid_pre : id2 ∉ pre.map Prod.fst := by
        intro hc
        have := (List.nodup_append.mp hnd).2.2
        exact this hc (List.mem_cons_self id2 _)
      have hid_post : id2 ∉ post.map Prod.fst :=
        ((List.nodup_append.mp hnd).2.1).not_mem
      constructor
      · intro id3 hmem
        have hmem2 : id3 ∈ pre.map Prod.fst ∨ id3 ∈ post.map Prod.fst := by
          simpa [pendingIds] using hmem
        have hne : id3 ≠ id2 := by
          intro he
          subst he
          rcases hmem2 with h2 | h2
          · exact hid_pre h2
          · exact hid_post h2
        show (if id3 = id2 then some (process_full_chat sent text) else s2.store id3) =
          some JStatus.processing
        rw [if_neg hne]
        apply ih.1
        rw [hpend]
        rcases hmem2 with h2 | h2
        · exact List.mem_append.mpr (Or.inl h2)
        · exact List.mem_append.mpr (Or.inr (List.mem_cons_of_mem _ h2))
      · show (((pre ++ post)).map Prod.fst).Nodup
        have hsub : List.Sublist ((pre ++ post).map Prod.fst) (pendingIds s2) := by
          rw [pendingIds, hsplit]
          exact ((List.sublist_cons_self (id2, text) post).append_left pre).map Prod.fst
        exact ih.2.sublist hsub

/-- C7: a job identifier enters the store as processing at upload, and once
an orchestrator step has stored done or error for it, every later step
preserves that value — no reachable step reverts a finished job or changes
it again. -/
theorem c7_status_transitions (sent : String → ℚ) (s s2 : Orch) (id : String)
    (hreach : Reach sent s) (hstep : OStep sent s s2) :
    (s.store id = none → ∀ st, s2.store id = some st → st = JStatus.processing) ∧
    (∀ b, s.store id = some (JStatus.done b) → s2.store id = some (JStatus.done b)) ∧
    (∀ m, s.store id = some (JStatus.error m) → s2.store id = some (JStatus.error m)) := by
  have hinv := orch_inv sent s hreach
  cases hstep with
  | upload id2 text hfresh =>
    refine ⟨?_, ?_, ?_⟩
    · intro hnone st hst
      change (if id = id2 then some JStatus.processing else s.store id) = some st at hst
      by_cases hid : id = id2
      · rw [if_pos hid] at hst
        exact (Option.some.inj hst).symm
      · rw [if_neg hid, hnone] at hst
        cases hst
    · intro b hb
      have hid : id ≠ id2 := fun he => by rw [he, hfresh] at hb; cases hb
      change (if id = id2 then some JStatus.processing else s.store id) = _
      rw [if_neg hid]
      exact hb
    · intro m hm
      have hid : id ≠ id2 := fun he => by rw [he, hfresh] at hm; cases hm
      change (if id = id2 then some JStatus.processing else s.store id) = _
      rw [if_neg hid]
      exact hm
  | run id2 text pre post hsplit =>
    have hproc : s.store id2 = some JStatus.processing := by
      apply hinv.1
      rw [pendingIds, hsplit]
      simp
    refine ⟨?_, ?_, ?_⟩
    · intro hnone st hst
      change (if id = id2 then some (process_full_chat sent text) else s.store id) = some st
        at hst
      by_cases hid : id = id2
      · rw [hid, hproc] at hnone
        cases hnone
      · rw [if_neg hid, hnone] at hst
        cases hst
    · intro b hb
      have hid : id ≠ id2 := fun he => by rw [he, hproc] at hb; simp at hb
      change (if id = id2 then some (process_full_chat sent text) else s.store id) = _
      rw [if_neg hid]
      exact hb
    · intro m hm
      have hid : id ≠ id2 := fun he => by rw [he, hproc] at hm; simp at hm
      change (if id = id2 then some (process_full_chat sent text) else s.store id) = _
      rw [if_neg hid]
      exact hm

/-- C7 witness: the preservation theorem applied along a concrete reachable
trace — upload of an unparseable file under identifier a, the task runs and
stores the error, then a later upload of identifier b leaves the finished
job untouched. -/
theorem c7_witness :
    (⟨fun x => if x = "b" then some JStatus.processing else orchS2.store x,
        orchS2.pending ++ [("b", "u")]⟩ : Orch).store "a" =
      some (JStatus.error "No valid chat data found.") := by
  have h1 : OStep sent0 Orch.init orchS1 := OStep.upload Orch.init "a" "t" rfl
  have h2 : OStep sent0 orchS1 orchS2 := OStep.run orchS1 "a" "t" [] [] rfl
  exact (c7_status_transitions sent0 orchS2 _ "a"
    (Relation.ReflTransGen.tail (Relation.ReflTransGen.tail Relation.ReflTransGen.refl h1) h2)
    (OStep.upload orchS2 "b" "u" (by decide))).2.2 "No valid chat data found." (by decide)

/-- C8: a status query for an identifier absent from the store returns the
processing placeholder and never an error value. -/
theorem c8_unknown_id (s : Orch) (id : String) (h : s.store id = none) :
    get_result s id = JStatus.processing ∧ ∀ m, get_result s id ≠ JStatus.error m := by
  unfold get_result
  rw [h]
  exact ⟨rfl, fun m hm => JStatus.noConfusion hm⟩

/-- C8 witness: the query theorem applied to the initial store and a never
issued identifier. -/
theorem c8_witness : get_result Orch.init "never-issued" = JStatus.processing :=
  (c8_unknown_id Orch.init "never-issued" rfl).1

/-- C9: every keyword-theme entry is a token longer than three characters
carrying its exact occurrence count; the list holds the 15 most frequent
such tokens — it has length min 15 (number of distinct tokens), is ordered
by descending count, and every excluded token counts no more than any
included one. -/
theorem c9_keyword_themes (tbl : List Record) :
    (∀ p, p ∈ keyword_themes tbl → 3 < p.1.length ∧ p.2 = (wordsOfS tbl).count p.1) ∧
    (keyword_themes tbl).length = min 15 (counterItems (wordsOfS tbl)).length ∧
    List.Pairwise (fun a b : String × Nat => b.2 ≤ a.2) (keyword_themes tbl) ∧
    (∀ p q, p ∈ keyword_themes tbl → q ∈ counterItems (wordsOfS tbl) →
      q ∉ keyword_themes tbl → q.2 ≤ p.2) := by
  have hsorted : List.Sorted cntGe (List.insertionSort cntGe (counterItems (wordsOfS tbl))) :=
    List.sorted_insertionSort cntGe _
  refine ⟨?_, ?_, ?_, ?_⟩
  · intro p hp
    have hp2 : p ∈ List.insertionSort cntGe (counterItems (wordsOfS tbl)) :=
      List.take_subset 15 _ hp
    have hp3 : p ∈ counterItems (wordsOfS tbl) := by
      simpa using hp2
    obtain ⟨hw, hc⟩ := mem_counterItems hp3
    refine ⟨?_, hc⟩
    have hfil := List.of_mem_filter hw
    exact of_decide_eq_true hfil
  · show (List.take 15 (sortByCountDesc (counterItems (wordsOfS tbl)))).length = _
    rw [List.length_take]
    congr 1
    exact (List.perm_insertionSort cntGe _).length_eq
  · exact List.Pairwise.sublist (List.take_sublist 15 _) hsorted
  · intro p q hp hq hnq
    have hqL : q ∈ List.insertionSort cntGe (counterItems (wordsOfS tbl)) := by
      simpa using hq
    have hq0 : q ∈ List.take 15 (List.insertionSort cntGe (counterItems (wordsOfS tbl))) ++
        List.drop 15 (List.insertionSort cntGe (counterItems (wordsOfS tbl))) := by
      rw [List.take_append_drop]
      exact hqL
    have hq2 : q ∈ List.drop 15 (List.insertionSort cntGe (counterItems (wordsOfS tbl))) := by
      rcases List.mem_append.mp hq0 with h2 | h2
      · exact absurd h2 hnq
      · exact h2
    have hPW : List.Pairwise cntGe
        (List.take 15 (List.insertionSort cntGe (counterItems (wordsOfS tbl))) ++
          List.drop 15 (List.insertionSort cntGe (counterItems (wordsOfS tbl)))) := by
      rw [List.take_append_drop]
      exact hsorted
    exact (List.pairwise_append.mp hPW).2.2 p hp q hq2

/-- C9 witness: the keyword theorem applied to a concrete table and the
entry for the token hello. -/
theorem c9_witness :
    ("hello", 1) ∈ keyword_themes (recordTable "01/01/24, 10:00 - Alice: hello world") ∧
    3 < "hello".length ∧
    1 = (wordsOfS (recordTable "01/01/24, 10:00 - Alice: hello world")).count "hello" :=
  ⟨by decide,
    ((c9_keyword_themes (recordTable "01/01/24, 10:00 - Alice: hello world")).1
      ("hello", 1) (by decide)).1,
    ((c9_keyword_themes (recordTable "01/01/24, 10:00 - Alice: hello world")).1
      ("hello", 1) (by decide)).2⟩

/-- C10: in every bundle, the communication-style and emoji-usage mappings
carry exactly one entry per distinct author of the record table: their key
lists equal the author list of `unique()` in first-occurrence order, which
has no duplicates. -/
theorem c10_per_author_keys (sent : String → ℚ) (tbl : List Record) :
    (mkBundle sent tbl).communication_style.map Prod.fst = uniqueAuthors tbl ∧
    (mkBundle sent tbl).emoji_usage.map Prod.fst = uniqueAuthors tbl ∧
    (uniqueAuthors tbl).Nodup := by
  refine ⟨?_, ?_, nodup_dedupFO _⟩
  · show (communication_style tbl).map Prod.fst = uniqueAuthors tbl
    unfold communication_style
    rw [List.map_map]
    exact List.map_id _
  · show (emoji_usage tbl).map Prod.fst = uniqueAuthors tbl
    exact emoji_keys_aux tbl []

end Delulu
